import Mathlib

/-!
Shallow embedding of the hierarchical data-access and aggregation layer of the
mzo dashboard (src/services/dataService.ts, src/services/googleSheetsService.ts,
src/components/PendingNSCReport.tsx, src/components/ConsumersReport.tsx),
together with theorems settling the frozen claims about it.

Modelling conventions, used throughout:
* JavaScript strings are Lean `String`s; a field that may be `undefined` in JS
  is modelled as the empty string `""` (both are falsy, compare unequal to any
  non-empty string, and are coalesced identically by `|| '...'` defaults, so
  the embedding is observationally faithful for every operation the code
  performs on these fields).
* JS numbers are `Int` where the code produces them with `parseInt`, and `ℚ`
  where it produces them with `parseFloat` or arithmetic.
* A JS object used as a string-keyed dictionary is an association list
  `List (String × β)` with unique keys (JS object keys are unique); insertion
  of a fresh key appends, matching JS enumeration order for non-index keys.
* `async` functions that fetch a dataset and then filter/transform it are
  modelled as pure functions taking the provider's record list as an argument.
-/

namespace MZO

/-- Roles of `UserRole` in src/types.ts. -/
inductive UserRole where
  | ZONE
  | REGION
  | DIVISION
  | CCC
deriving DecidableEq, Repr

/-- The fields of the `User` descriptor read by the data layer
(src/types.ts); display-only fields (user_id, full_name, …) are omitted.
Hierarchy codes may be `undefined` in TS, modelled as `""`. -/
structure User where
  role : UserRole
  zone_code : String := ""
  region_code : String := ""
  division_code : String := ""
  ccc_code : String := ""
deriving DecidableEq, Repr

/-- The four hierarchy-code fields carried by scoped records. -/
structure HierCodes where
  zone_code : String := ""
  region_code : String := ""
  division_code : String := ""
  ccc_code : String := ""
deriving DecidableEq, Repr

/-- JS truthiness of a string: `""` (and the absent field it models) is falsy. -/
def truthy (s : String) : Bool := s != ""

/-- Embedding of `applyHierarchyRestriction` (src/services/dataService.ts lines 9-20):
examine the user's role, and when the record carries a truthy code at that
level, require equality with the user's code. -/
def applyHierarchyRestriction (row : HierCodes) (user : User) : Bool :=
  if user.role = .REGION then
    if truthy row.region_code && row.region_code != user.region_code then false else true
  else if user.role = .DIVISION then
    if truthy row.division_code && row.division_code != user.division_code then false else true
  else if user.role = .CCC then
    if truthy row.ccc_code && row.ccc_code != user.ccc_code then false else true
  else if user.role = .ZONE then
    if truthy row.zone_code && row.zone_code != user.zone_code then false else true
  else true

/-- Pass/fail of one multi-select filter field against one record value:
`filters.F && filters.F.length > 0 && !filters.F.includes(v)` rejects the
record.  `none` models an absent field, `some []` a present-but-empty array. -/
def multiReject (f : Option (List String)) (v : String) : Bool :=
  match f with
  | none => false
  | some l => decide (l.length > 0) && !(l.contains v)

/-- JS `hay.includes(needle)` (substring containment). -/
def jsIncludes (hay needle : String) : Bool :=
  decide (needle.toList <:+: hay.toList)

/-- The filter specification (`HierarchyFilter`): single-select hierarchy
fields, multi-select array fields (as used by src/services/dataService.ts;
the declared TS interface lags behind the code), a free-text query and a
date range.  `""`/`none` model absent fields. -/
structure HierarchyFilter where
  zone : String := ""
  region : String := ""
  division : String := ""
  ccc : String := ""
  dateRange : Option (String × String) := none
  delayRange : Option (List String) := none
  poleNonPole : Option (List String) := none
  applicantType : Option (List String) := none
  connClass : Option (List String) := none
  isDuareSarkar : Option (List String) := none
  isPortalAppl : Option (List String) := none
  woIssued : Option (List String) := none
  divnName : Option (List String) := none
  suppOffloadWatts : Option (List String) := none
  appliedPhase : Option (List String) := none
  noOfPoles : Option (List String) := none
  regionCodes : Option (List String) := none
  divisionCodes : Option (List String) := none
  cccCodes : Option (List String) := none
  connStat : Option (List String) := none
  baseClass : Option (List String) := none
  category : Option (List String) := none
  meterType : Option (List String) := none
  connPhase : Option (List String) := none
  govtStat : Option (List String) := none
  connBy : Option (List String) := none
  searchQuery : String := ""

/-- A pending-NSC record (`PendingNSCData`), restricted to the fields the
data layer reads; remaining display-only columns are omitted. -/
structure NSCRow extends HierCodes where
  APPL_NO : String := ""
  NAME : String := ""
  PHONE_NO : String := ""
  APPLICANT_TYPE : String := ""
  CONN_CLASS : String := ""
  IS_DUARE_SARKAR : String := ""
  IS_PORTAL_APPL : String := ""
  DelayRange : String := ""
  PoleNonPole : String := ""
  WO_ISSUED : String := ""
  DIVN_NAME : String := ""
  APPLIED_PHASE : String := ""
  SUPP_OFFLOAD_WATTS : ℚ := 0
  NO_OF_POLES : Int := 0
  DelayInSC : ℚ := 0
  DelaySerial : Int := 0
deriving DecidableEq, Repr

/-- JS `String(n)` for an integer-valued number field. -/
def jsIntToString (n : Int) : String := toString n

/-- JS `String(x)` for a float-valued number field; exact decimal formatting
is irrelevant to every claim (only equality with filter entries is used), so
the `ℚ` representation is printed with `toString`. -/
def jsNumToString (q : ℚ) : String := toString q

/-- The filter callback of `fetchNSCData` (src/services/dataService.ts
lines 25-59). -/
def nscPred (user : User) (fs : HierarchyFilter) (row : NSCRow) : Bool :=
  if !applyHierarchyRestriction row.toHierCodes user then false
  else if truthy fs.zone && row.zone_code != fs.zone then false
  else if truthy fs.region && row.region_code != fs.region then false
  else if truthy fs.division && row.division_code != fs.division then false
  else if truthy fs.ccc && row.ccc_code != fs.ccc then false
  else if multiReject fs.delayRange row.DelayRange then false
  else if multiReject fs.poleNonPole row.PoleNonPole then false
  else if multiReject fs.applicantType row.APPLICANT_TYPE then false
  else if multiReject fs.connClass row.CONN_CLASS then false
  else if multiReject fs.isDuareSarkar row.IS_DUARE_SARKAR then false
  else if multiReject fs.isPortalAppl row.IS_PORTAL_APPL then false
  else if multiReject fs.woIssued row.WO_ISSUED then false
  else if multiReject fs.divnName row.DIVN_NAME then false
  else if multiReject fs.suppOffloadWatts (jsNumToString row.SUPP_OFFLOAD_WATTS) then false
  else if multiReject fs.appliedPhase row.APPLIED_PHASE then false
  else if multiReject fs.noOfPoles (jsIntToString row.NO_OF_POLES) then false
  else if truthy fs.searchQuery then
    let q := fs.searchQuery.toLower
    jsIncludes row.APPL_NO.toLower q ||
    jsIncludes row.NAME.toLower q ||
    jsIncludes row.PHONE_NO.toLower q
  else true

/-- Embedding of `fetchNSCData` (src/services/dataService.ts lines 22-60), with the
provider's record list passed explicitly. -/
def fetchNSCData (user : User) (fs : HierarchyFilter) (allData : List NSCRow) : List NSCRow :=
  allData.filter (nscPred user fs)

/-- A consumer record (`ConsumerData`) with the fields the data layer reads.
The `region_code`, `division_code` and `*_name` fields are referenced by the
code but never populated by `fetchConsumersFromSheet`; they model the
`undefined` accesses and are `""` on real data. -/
structure ConsumerRow where
  date : String := ""
  region_code : String := ""
  division_code : String := ""
  ccc_code : String := ""
  region_name : String := ""
  division_name : String := ""
  ccc_name : String := ""
  CONN_STAT : String := ""
  BASE_CLASS : String := ""
  CATEGORY : String := ""
  TYPE_OF_METER : String := ""
  CONN_PHASE : String := ""
  GOVT_STAT : String := ""
  CONN_BY : String := ""
  COUNT : Int := 0
  LOAD : ℚ := 0
  SD_LAKH : ℚ := 0
  OSD_LAKH : ℚ := 0
deriving DecidableEq, Repr

/-- The inline mandatory hierarchy restriction of `fetchConsumerData`
(src/services/dataService.ts lines 67-69).  Note the CCC branch compares
unconditionally, without the `row.ccc_code &&` guard the other levels have. -/
def consumerHierarchyOk (user : User) (row : ConsumerRow) : Bool :=
  if user.role = .CCC && row.ccc_code != user.ccc_code then false
  else if user.role = .DIVISION && truthy row.division_code && row.division_code != user.division_code then false
  else if user.role = .REGION && truthy row.region_code && row.region_code != user.region_code then false
  else true

/-- The filter callback of `fetchConsumerData` (src/services/dataService.ts
lines 65-97). -/
def consumerPred (user : User) (fs : HierarchyFilter) (row : ConsumerRow) : Bool :=
  if !consumerHierarchyOk user row then false
  else if multiReject fs.regionCodes row.region_code then false
  else if multiReject fs.divisionCodes row.division_code then false
  else if multiReject fs.cccCodes row.ccc_code then false
  else if multiReject fs.connStat row.CONN_STAT then false
  else if multiReject fs.baseClass row.BASE_CLASS then false
  else if multiReject fs.category row.CATEGORY then false
  else if multiReject fs.meterType row.TYPE_OF_METER then false
  else if multiReject fs.connPhase row.CONN_PHASE then false
  else if multiReject fs.govtStat row.GOVT_STAT then false
  else if multiReject fs.connBy row.CONN_BY then false
  else if truthy fs.searchQuery then
    let q := fs.searchQuery.toLower
    jsIncludes row.ccc_code.toLower q ||
    (truthy row.ccc_name && jsIncludes row.ccc_name.toLower q) ||
    jsIncludes row.CATEGORY.toLower q ||
    jsIncludes row.CONN_STAT.toLower q
  else true

/-- Embedding of `fetchConsumerData` (src/services/dataService.ts lines 62-98). -/
def fetchConsumerData (user : User) (fs : HierarchyFilter) (allData : List ConsumerRow) : List ConsumerRow :=
  allData.filter (consumerPred user fs)

/-- A docket record (`DocketData`) with the fields the data layer reads. -/
structure DocketRow extends HierCodes where
  doc_no : String := ""
  con_id : String := ""
  PARTY_NAME : String := ""
  prob_type : String := ""
deriving DecidableEq, Repr

/-- The filter callback of `fetchDocketData` (src/services/dataService.ts
lines 118-136). -/
def docketPred (user : User) (fs : HierarchyFilter) (row : DocketRow) : Bool :=
  if !applyHierarchyRestriction row.toHierCodes user then false
  else if truthy fs.zone && row.zone_code != fs.zone then false
  else if truthy fs.region && row.region_code != fs.region then false
  else if truthy fs.division && row.division_code != fs.division then false
  else if truthy fs.ccc && row.ccc_code != fs.ccc then false
  else if truthy fs.searchQuery then
    let q := fs.searchQuery.toLower
    jsIncludes row.doc_no.toLower q ||
    jsIncludes row.PARTY_NAME.toLower q ||
    jsIncludes row.con_id.toLower q
  else true

/-- Embedding of `fetchDocketData` (src/services/dataService.ts lines 115-137). -/
def fetchDocketData (user : User) (fs : HierarchyFilter) (allData : List DocketRow) : List DocketRow :=
  allData.filter (docketPred user fs)

/-- A collection record (`CollectionData`) with the fields the data layer
reads.  `PAYMENT_DT` is a `YYYYMMDD` digit string. -/
structure CollectionRow extends HierCodes where
  PAYMENT_DT : String := ""
  MODE : String := ""
  COUNT : Int := 0
  AMOUNT_PAID : ℚ := 0
deriving DecidableEq, Repr

/-- The filter callback of `fetchCollectionData` (src/services/dataService.ts
lines 208-217). -/
def collectionPred (user : User) (fs : HierarchyFilter) (row : CollectionRow) : Bool :=
  if !applyHierarchyRestriction row.toHierCodes user then false
  else if truthy fs.zone && row.zone_code != fs.zone then false
  else if truthy fs.region && row.region_code != fs.region then false
  else if truthy fs.division && row.division_code != fs.division then false
  else if truthy fs.ccc && row.ccc_code != fs.ccc then false
  else true

/-- Embedding of `fetchCollectionData` (src/services/dataService.ts lines 205-218). -/
def fetchCollectionData (user : User) (fs : HierarchyFilter) (allData : List CollectionRow) : List CollectionRow :=
  allData.filter (collectionPred user fs)

/-! ### String-keyed accumulation (the `if (!map[k]) map[k] = init; map[k] = f(map[k])`
pattern shared by all three aggregators).  A JS object is an association list
with unique keys; a fresh key is appended (JS enumeration order). -/

/-- Update the entry at `k` with `f`, creating it from `d` first when absent. -/
def upsert (m : List (String × β)) (k : String) (d : β) (f : β → β) : List (String × β) :=
  if m.any (fun kv => kv.1 == k) then
    m.map (fun kv => if kv.1 == k then (kv.1, f kv.2) else kv)
  else m ++ [(k, f d)]

theorem upsert_cons_ne (a : String × β) (m : List (String × β)) (k d f)
    (h : (a.1 == k) = false) : upsert (a :: m) k d f = a :: upsert m k d f := by
  simp only [upsert, List.any_cons, h, Bool.false_or, List.map_cons]
  cases hm : m.any (fun kv => kv.1 == k) with
  | true => simp [hm, h]
  | false => simp [hm, h]

theorem upsert_nil (k : String) (d : β) (f : β → β) : upsert [] k d f = [(k, f d)] := rfl

theorem keys_upsert_pos (m : List (String × β)) (k d f)
    (h : m.any (fun kv => kv.1 == k) = true) :
    (upsert m k d f).map Prod.fst = m.map Prod.fst := by
  simp only [upsert, h, if_true, List.map_map]
  refine List.map_congr_left fun kv _ => ?_
  by_cases hk : kv.1 = k
  · simp [hk]
  · simp [hk]

theorem keys_upsert_neg (m : List (String × β)) (k d f)
    (h : m.any (fun kv => kv.1 == k) = false) :
    (upsert m k d f).map Prod.fst = m.map Prod.fst ++ [k] := by
  simp only [upsert, h]
  simp

theorem nodup_keys_upsert (m : List (String × β)) (k d f)
    (h : (m.map Prod.fst).Nodup) : ((upsert m k d f).map Prod.fst).Nodup := by
  cases hm : m.any (fun kv => kv.1 == k) with
  | true => rw [keys_upsert_pos m k d f hm]; exact h
  | false =>
    rw [keys_upsert_neg m k d f hm, List.nodup_append]
    refine ⟨h, List.nodup_singleton k, ?_⟩
    intro x hx hk
    rw [List.mem_singleton] at hk
    subst hk
    rw [List.mem_map] at hx
    obtain ⟨kv, hkv, hfst⟩ := hx
    rw [List.any_eq_false] at hm
    exact absurd (by rw [beq_iff_eq]; exact hfst) (hm kv hkv)

/-- Conservation of an additive measure `μ` under `upsert`, when the key set
has no duplicates, `μ` vanishes on the initial value and `f` adds `δ`. -/
theorem sum_map_upsert {M : Type} [AddCommMonoid M] (μ : β → M) (δ : M)
    (m : List (String × β)) (k : String) (d : β) (f : β → β)
    (hd : μ d = 0) (hf : ∀ b, μ (f b) = μ b + δ)
    (hnd : (m.map Prod.fst).Nodup) :
    ((upsert m k d f).map (fun kv => μ kv.2)).sum = (m.map (fun kv => μ kv.2)).sum + δ := by
  induction m with
  | nil => simp [upsert_nil, hf, hd]
  | cons a m ih =>
    cases hk : (a.1 == k) with
    | true =>
      have hkeq : a.1 = k := beq_iff_eq.mp hk
      have hnotin : ∀ kv ∈ m, (kv.1 == k) = false := by
        intro kv hkv
        rw [List.map_cons, List.nodup_cons] at hnd
        rw [beq_eq_false_iff_ne]
        intro he
        refine hnd.1 ?_
        rw [show a.1 = kv.1 from by rw [hkeq, he]]
        exact List.mem_map_of_mem Prod.fst hkv
      have hany : (a :: m).any (fun kv => kv.1 == k) = true := by simp [hk]
      simp only [upsert, hany, if_true, List.map_cons, hk, if_true, List.map_map]
      have hrest : m.map (fun kv => if kv.1 == k then (kv.1, f kv.2) else kv) = m := by
        conv_rhs => rw [← List.map_id m]
        refine List.map_congr_left fun kv hkv => ?_
        simp [hnotin kv hkv]
      rw [show List.map ((fun kv => μ kv.2) ∘ fun kv =>
            if kv.1 == k then (kv.1, f kv.2) else kv) m
          = List.map (fun kv => μ kv.2)
              (List.map (fun kv => if kv.1 == k then (kv.1, f kv.2) else kv) m) from
        (List.map_map ..).symm]
      rw [hrest, List.sum_cons, List.sum_cons, hf]
      rw [add_right_comm]
    | false =>
      rw [upsert_cons_ne a m k d f hk]
      rw [List.map_cons, List.map_cons, List.sum_cons, List.sum_cons]
      rw [List.map_cons, List.nodup_cons] at hnd
      rw [ih hnd.2, add_assoc]

theorem foldl_upsert_nodup (keyf : α → String) (df : α → β) (ff : α → β → β)
    (data : List α) : ∀ m : List (String × β), (m.map Prod.fst).Nodup →
    ((data.foldl (fun acc x => upsert acc (keyf x) (df x) (ff x)) m).map Prod.fst).Nodup := by
  induction data with
  | nil => intro m h; exact h
  | cons x data ih =>
    intro m h
    exact ih _ (nodup_keys_upsert m (keyf x) (df x) (ff x) h)

theorem foldl_upsert_sum {M : Type} [AddCommMonoid M] (μ : β → M) (δ : α → M)
    (keyf : α → String) (df : α → β) (ff : α → β → β)
    (hd : ∀ x, μ (df x) = 0) (hf : ∀ x b, μ (ff x b) = μ b + δ x)
    (data : List α) : ∀ m : List (String × β), (m.map Prod.fst).Nodup →
    ((data.foldl (fun acc x => upsert acc (keyf x) (df x) (ff x)) m).map
        (fun kv => μ kv.2)).sum
      = (m.map (fun kv => μ kv.2)).sum + (data.map δ).sum := by
  induction data with
  | nil => intro m _; simp
  | cons x data ih =>
    intro m h
    rw [List.foldl_cons]
    rw [ih _ (nodup_keys_upsert m (keyf x) (df x) (ff x) h)]
    rw [sum_map_upsert μ (δ x) m (keyf x) (df x) (ff x) (hd x) (hf x) h]
    rw [List.map_cons, List.sum_cons, add_assoc]

theorem foldl_guard_eq_filter {σ : Type} (g : α → Bool) (step : σ → α → σ)
    (data : List α) : ∀ m : σ,
    data.foldl (fun acc x => if g x then step acc x else acc) m
      = (data.filter g).foldl step m := by
  induction data with
  | nil => intro m; rfl
  | cons x data ih =>
    intro m
    cases hg : g x with
    | true => simp [hg, ih]
    | false => simp [hg, ih]

theorem sum_map_mergeSort {M : Type} [AddCommMonoid M] (le : γ → γ → Bool)
    (l : List γ) (f : γ → M) : ((l.mergeSort le).map f).sum = (l.map f).sum :=
  ((l.mergeSort_perm le).map f).sum_eq

/-! ### Office name resolver (src/components/ConsumersReport.tsx lines 105-109) -/

/-- The regex replace `val.replace(/^(Z-|R-|D-|CCC-)/i, '')`: drop one leading
level tag, case-insensitively. -/
def stripLevelTag (cs : List Char) : List Char :=
  if (cs.take 2).map Char.toUpper = ['Z', '-'] then cs.drop 2
  else if (cs.take 2).map Char.toUpper = ['R', '-'] then cs.drop 2
  else if (cs.take 2).map Char.toUpper = ['D', '-'] then cs.drop 2
  else if (cs.take 4).map Char.toUpper = ['C', 'C', 'C', '-'] then cs.drop 4
  else cs

/-- JS `String.prototype.trim`: drop leading and trailing whitespace. -/
def trimChars (cs : List Char) : List Char :=
  ((cs.dropWhile Char.isWhitespace).reverse.dropWhile Char.isWhitespace).reverse

/-- Embedding of `formatValue` of ConsumersReport: strip a level tag, then `trim`. -/
def formatValue (s : String) : String := (trimChars (stripLevelTag s.toList)).asString

/-- Embedding of `resolveName` (src/components/ConsumersReport.tsx lines 105-109):
`formatValue(String(officeMap[code] || code || ''))`, with the office map as
an association list. -/
def resolveName (officeMap : List (String × String)) (code : String) : String :=
  let rawName :=
    match officeMap.lookup code with
    | some n => if truthy n then n else (if truthy code then code else "")
    | none => if truthy code then code else ""
  formatValue rawName

/-! ### `getSummaryData` (src/components/PendingNSCReport.tsx lines 55-79) -/

/-- The grouping keys the component passes to `getSummaryData`. -/
inductive NSCKey where
  | DelayRange
  | CONN_CLASS
  | PoleNonPole
deriving DecidableEq, Repr

def nscKeyVal (row : NSCRow) : NSCKey → String
  | .DelayRange => row.DelayRange
  | .CONN_CLASS => row.CONN_CLASS
  | .PoleNonPole => row.PoleNonPole

/-- Embedding of `String(item[key] || 'N/A')`. -/
def summaryVal (key : NSCKey) (row : NSCRow) : String :=
  if truthy (nscKeyVal row key) then nscKeyVal row key else "N/A"

structure SummaryStats where
  count : Nat
  totalDelay : ℚ
  serial : Int
deriving DecidableEq, Repr

structure SummaryEntry where
  label : String
  count : Nat
  avgDelay : ℚ
  serial : Int
deriving DecidableEq, Repr

/-- The accumulation loop of `getSummaryData`: group by the (defaulted) key
value, counting records and totalling `DelayInSC`; the `serial` of a bucket is
the `DelaySerial` of the record that created it. -/
def summaryFold (key : NSCKey) (data : List NSCRow) : List (String × SummaryStats) :=
  data.foldl (fun m item =>
    upsert m (summaryVal key item) ⟨0, 0, item.DelaySerial⟩
      (fun st => ⟨st.count + 1, st.totalDelay + item.DelayInSC, st.serial⟩)) []

/-- Embedding of `getSummaryData` (src/components/PendingNSCReport.tsx lines 55-79). -/
def getSummaryData (key : NSCKey) (data : List NSCRow) : List SummaryEntry :=
  let summaryList := (summaryFold key data).map (fun kv =>
    { label := kv.1
      count := kv.2.count
      avgDelay := if kv.2.count > 0 then kv.2.totalDelay / (kv.2.count : ℚ) else 0
      serial := kv.2.serial })
  if key = .DelayRange then summaryList.mergeSort (fun a b => decide (b.serial ≤ a.serial))
  else summaryList.mergeSort (fun a b => decide (b.avgDelay ≤ a.avgDelay))

/-! ### The `compute` aggregation of ConsumersReport
(src/components/ConsumersReport.tsx lines 324-348) -/

/-- The fields `compute` is invoked on (`field` or `nameField` arguments). -/
inductive ConsumerField where
  | region_code
  | division_code
  | ccc_code
  | region_name
  | division_name
  | ccc_name
  | CONN_STAT
  | BASE_CLASS
  | CATEGORY
  | TYPE_OF_METER
  | CONN_PHASE
  | GOVT_STAT
  | CONN_BY
deriving DecidableEq, Repr

def consumerFieldVal (row : ConsumerRow) : ConsumerField → String
  | .region_code => row.region_code
  | .division_code => row.division_code
  | .ccc_code => row.ccc_code
  | .region_name => row.region_name
  | .division_name => row.division_name
  | .ccc_name => row.ccc_name
  | .CONN_STAT => row.CONN_STAT
  | .BASE_CLASS => row.BASE_CLASS
  | .CATEGORY => row.CATEGORY
  | .TYPE_OF_METER => row.TYPE_OF_METER
  | .CONN_PHASE => row.CONN_PHASE
  | .GOVT_STAT => row.GOVT_STAT
  | .CONN_BY => row.CONN_BY

/-- Embedding of `field.toString().includes('_code')`. -/
def fieldHasCodeMark : ConsumerField → Bool
  | .region_code => true
  | .division_code => true
  | .ccc_code => true
  | _ => false

/-- The bucket label of one record in `compute`:
`nameField && row[nameField] ? String(row[nameField]) : String(row[field] || 'Unknown')`,
followed by the `resolveName` normalisation for `_code` fields without a
`nameField`. -/
def computeVal (officeMap : List (String × String)) (field : ConsumerField)
    (nameField : Option ConsumerField) (row : ConsumerRow) : String :=
  match nameField with
  | some nf =>
    if truthy (consumerFieldVal row nf) then consumerFieldVal row nf
    else if truthy (consumerFieldVal row field) then consumerFieldVal row field
    else "Unknown"
  | none =>
    let v := if truthy (consumerFieldVal row field) then consumerFieldVal row field
      else "Unknown"
    if v != "Unknown" && fieldHasCodeMark field then resolveName officeMap v else v

/-- Embedding of `((x * 10).round) / 10`: the value displayed by `toFixed(1)` (round to the
nearest tenth, ties upward — `toFixed` picks the larger candidate on a tie). -/
def roundTenth (q : ℚ) : ℚ := ((round (q * 10) : ℤ) : ℚ) / 10

structure ShareEntry where
  name : String
  count : Int
  share : ℚ
deriving DecidableEq, Repr

structure ComputeResult where
  data : List ShareEntry
  total : Int
deriving DecidableEq, Repr

/-- The grouping loop of `compute`: `acc[val] = (acc[val] || 0) + row.COUNT`. -/
def computeFold (officeMap : List (String × String)) (field : ConsumerField)
    (nameField : Option ConsumerField) (rows : List ConsumerRow) :
    List (String × Int) :=
  rows.foldl (fun acc row =>
    upsert acc (computeVal officeMap field nameField row) 0 (fun c => c + row.COUNT)) []

/-- Embedding of `compute` (src/components/ConsumersReport.tsx lines 324-348): group by
bucket label summing `COUNT`; `total` is the sum of all bucket values; each
entry carries a share `(count / total) * 100` rendered to one decimal (`0`
when `total` is not positive); entries sorted by descending count. -/
def computeConsumer (officeMap : List (String × String)) (field : ConsumerField)
    (nameField : Option ConsumerField) (rows : List ConsumerRow) : ComputeResult :=
  let aggregated := computeFold officeMap field nameField rows
  let total : Int := (aggregated.map (fun kv => kv.2)).sum
  let sortedData := (aggregated.map (fun kv =>
    ({ name := if kv.1 == "undefined" then "Unknown" else kv.1
       count := kv.2
       share := if 0 < total then roundTenth ((kv.2 : ℚ) / (total : ℚ) * 100) else 0 }
      : ShareEntry))).mergeSort (fun a b => decide (b.count ≤ a.count))
  ⟨sortedData, total⟩

/-! ### `processCollectionAggregates` (src/services/dataService.ts lines 220-273)

The code slices `PAYMENT_DT` (a `YYYYMMDD` digit string) into `y`, `m`, `d`,
builds `new Date(`${y}-${m}-${d}`)` and skips the record when the date is
invalid.  The embedding evaluates the same ISO `YYYY-MM-DD` validity rule
(four/two/two digit parts, month 1-12, day within the month, Gregorian leap
years); the engine-specific legacy fallback for non-ISO strings is modelled
as unparseable.  Week numbers follow the source's day-of-year approximation,
evaluated in UTC (the parsed `Date` is UTC midnight). -/

/-- Embedding of `s.substring(a, b)`, as the code-unit slice of the string (all
`PAYMENT_DT` handling is on ASCII digit strings). -/
def jsSub (s : String) (a b : Nat) : List Char :=
  (s.toList.drop a).take (b - a)

/-- Embedding of `parseInt` on a digit string. -/
def natOfDigits (cs : List Char) : Nat :=
  cs.foldl (fun n c => n * 10 + (c.toNat - 48)) 0

def isLeap (y : Nat) : Bool :=
  (y % 4 == 0 && y % 100 != 0) || y % 400 == 0

def daysInMonth (y m : Nat) : Nat :=
  match m with
  | 1 => 31
  | 2 => if isLeap y then 29 else 28
  | 3 => 31
  | 4 => 30
  | 5 => 31
  | 6 => 30
  | 7 => 31
  | 8 => 31
  | 9 => 30
  | 10 => 31
  | 11 => 30
  | 12 => 31
  | _ => 0

/-- Validity of `new Date(`${y}-${m}-${d}`)` for the sliced `PAYMENT_DT`,
returning the parsed `(year, month, day)`. -/
def parsePaymentDT (s : String) : Option (Nat × Nat × Nat) :=
  let ys := jsSub s 0 4
  let ms := jsSub s 4 6
  let ds := jsSub s 6 8
  if ys.length == 4 && ms.length == 2 && ds.length == 2
      && ys.all Char.isDigit && ms.all Char.isDigit && ds.all Char.isDigit then
    let y := natOfDigits ys
    let m := natOfDigits ms
    let d := natOfDigits ds
    if 1 ≤ m && m ≤ 12 && 1 ≤ d && d ≤ daysInMonth y m then some (y, m, d) else none
  else none

def monthDaysBefore (y m : Nat) : Nat :=
  match m with
  | 1 => 0
  | 2 => 31
  | 3 => 59 + (if isLeap y then 1 else 0)
  | 4 => 90 + (if isLeap y then 1 else 0)
  | 5 => 120 + (if isLeap y then 1 else 0)
  | 6 => 151 + (if isLeap y then 1 else 0)
  | 7 => 181 + (if isLeap y then 1 else 0)
  | 8 => 212 + (if isLeap y then 1 else 0)
  | 9 => 243 + (if isLeap y then 1 else 0)
  | 10 => 273 + (if isLeap y then 1 else 0)
  | 11 => 304 + (if isLeap y then 1 else 0)
  | 12 => 334 + (if isLeap y then 1 else 0)
  | _ => 0

def dayOfYear (y m d : Nat) : Nat := monthDaysBefore y m + d

/-- Embedding of `new Date(year, 0, 1).getDay()` (0 = Sunday), via the days-from-civil
count for January 1st of `year` (1970-01-01 is day 0, a Thursday). -/
def jan1Weekday (y : Nat) : Nat :=
  let yp : Int := (y : Int) - 1
  let era : Int := Int.fdiv yp 400
  let yoe : Nat := (yp - era * 400).toNat
  let doe : Nat := yoe * 365 + yoe / 4 - yoe / 100 + 306
  let days : Int := era * 146097 + (doe : Int) - 719468
  ((days + 4).emod 7).toNat

/-- Embedding of `Math.ceil((pastDaysOfYear + firstDayOfYear.getDay() + 1) / 7)` with
`pastDaysOfYear = dayOfYear - 1` (UTC). -/
def weekNumberOf (y m d : Nat) : Nat :=
  (dayOfYear y m d + jan1Weekday y + 6) / 7

/-- Embedding of `` `${y}-${m}-${d}` `` from the sliced `PAYMENT_DT`. -/
def dayKeyOf (s : String) : String :=
  (jsSub s 0 4).asString ++ "-" ++ (jsSub s 4 6).asString ++ "-" ++ (jsSub s 6 8).asString

/-- Embedding of `` `${y}-${m}` ``. -/
def monthKeyOf (s : String) : String :=
  (jsSub s 0 4).asString ++ "-" ++ (jsSub s 4 6).asString

/-- The fiscal-year bucket label (src/services/dataService.ts lines 238-241):
`month >= 4 ? `FY ${year}-${year + 1}` : `FY ${year - 1}-${year}``. -/
def fyKeyOfPayment (s : String) : String :=
  let year : Int := (natOfDigits (jsSub s 0 4) : Int)
  let month : Nat := natOfDigits (jsSub s 4 6)
  if month ≥ 4 then "FY " ++ toString year ++ "-" ++ toString (year + 1)
  else "FY " ++ toString (year - 1) ++ "-" ++ toString year

/-- Embedding of `` `${y}-W${weekNumber}` ``. -/
def weekKeyOf (s : String) : String :=
  let y := natOfDigits (jsSub s 0 4)
  let m := natOfDigits (jsSub s 4 6)
  let d := natOfDigits (jsSub s 6 8)
  (jsSub s 0 4).asString ++ "-W" ++ toString (weekNumberOf y m d)

structure CVal where
  count : Int := 0
  amount : ℚ := 0
deriving DecidableEq, Repr

structure CEntry where
  key : String
  count : Int
  amount : ℚ
deriving DecidableEq, Repr

/-- Embedding of `if (!res[key]) res[key] = {count: 0, amount: 0}; res[key].count += item.COUNT;
res[key].amount += item.AMOUNT_PAID`. -/
def addPayment (r : CollectionRow) (m : List (String × CVal)) (key : String) :
    List (String × CVal) :=
  upsert m key {} (fun v => ⟨v.count + r.COUNT, v.amount + r.AMOUNT_PAID⟩)

/-- One `forEach` iteration of `processCollectionAggregates`: skip the record
when its date is invalid, otherwise accumulate it into all four rollups. -/
def collStep4
    (st : List (String × CVal) × List (String × CVal) × List (String × CVal) × List (String × CVal))
    (r : CollectionRow) :
    List (String × CVal) × List (String × CVal) × List (String × CVal) × List (String × CVal) :=
  match parsePaymentDT r.PAYMENT_DT with
  | none => st
  | some _ =>
    (addPayment r st.1 (dayKeyOf r.PAYMENT_DT),
     addPayment r st.2.1 (weekKeyOf r.PAYMENT_DT),
     addPayment r st.2.2.1 (monthKeyOf r.PAYMENT_DT),
     addPayment r st.2.2.2 (fyKeyOfPayment r.PAYMENT_DT))

structure CollectionAggregates where
  dailyCount : List CEntry
  weeklyCount : List CEntry
  monthlyCount : List CEntry
  fyCount : List CEntry
deriving DecidableEq, Repr

/-- Embedding of `Object.entries(obj).map(...).sort((a, b) => a.key.localeCompare(b.key))`.
For the pure-ASCII keys produced here, `localeCompare` agrees with code-point
order; only the permutation matters to the claims. -/
def sortAndMap (m : List (String × CVal)) : List CEntry :=
  (m.map (fun kv => ({ key := kv.1, count := kv.2.count, amount := kv.2.amount } : CEntry))).mergeSort
    (fun a b => decide (a.key ≤ b.key))

/-- Embedding of `processCollectionAggregates` (src/services/dataService.ts lines 220-273). -/
def processCollectionAggregates (data : List CollectionRow) : CollectionAggregates :=
  let st := data.foldl collStep4 ([], [], [], [])
  ⟨sortAndMap st.1, sortAndMap st.2.1, sortAndMap st.2.2.1, sortAndMap st.2.2.2⟩

/-- One rollup in isolation: fold only the parseable records into one map. -/
def collFold (keyf : String → String) (data : List CollectionRow)
    (m : List (String × CVal)) : List (String × CVal) :=
  data.foldl (fun acc r =>
    if (parsePaymentDT r.PAYMENT_DT).isSome then addPayment r acc (keyf r.PAYMENT_DT)
    else acc) m

theorem collFold_cons_none (keyf : String → String) (r : CollectionRow)
    (data : List CollectionRow) (m : List (String × CVal))
    (hg : (parsePaymentDT r.PAYMENT_DT).isSome = false) :
    collFold keyf (r :: data) m = collFold keyf data m := by
  unfold collFold
  rw [List.foldl_cons, hg]
  simp only [Bool.false_eq_true, if_false]

theorem collFold_cons_some (keyf : String → String) (r : CollectionRow)
    (data : List CollectionRow) (m : List (String × CVal))
    (hg : (parsePaymentDT r.PAYMENT_DT).isSome = true) :
    collFold keyf (r :: data) m =
      collFold keyf data (addPayment r m (keyf r.PAYMENT_DT)) := by
  unfold collFold
  rw [List.foldl_cons, hg]
  simp only [if_true]

theorem foldl_collStep4_eq (data : List CollectionRow) :
    ∀ st, data.foldl collStep4 st =
      (collFold dayKeyOf data st.1, collFold weekKeyOf data st.2.1,
       collFold monthKeyOf data st.2.2.1, collFold fyKeyOfPayment data st.2.2.2) := by
  induction data with
  | nil => intro st; rfl
  | cons r data ih =>
    intro st
    rw [List.foldl_cons]
    cases hp : parsePaymentDT r.PAYMENT_DT with
    | none =>
      have hg : (parsePaymentDT r.PAYMENT_DT).isSome = false := by rw [hp]; rfl
      have hstep : collStep4 st r = st := by
        unfold collStep4
        rw [hp]
      rw [hstep, ih]
      rw [collFold_cons_none dayKeyOf r data st.1 hg,
        collFold_cons_none weekKeyOf r data st.2.1 hg,
        collFold_cons_none monthKeyOf r data st.2.2.1 hg,
        collFold_cons_none fyKeyOfPayment r data st.2.2.2 hg]
    | some v =>
      have hg : (parsePaymentDT r.PAYMENT_DT).isSome = true := by rw [hp]; rfl
      have hstep : collStep4 st r =
          (addPayment r st.1 (dayKeyOf r.PAYMENT_DT),
           addPayment r st.2.1 (weekKeyOf r.PAYMENT_DT),
           addPayment r st.2.2.1 (monthKeyOf r.PAYMENT_DT),
           addPayment r st.2.2.2 (fyKeyOfPayment r.PAYMENT_DT)) := by
        unfold collStep4
        rw [hp]
      rw [hstep, ih]
      rw [collFold_cons_some dayKeyOf r data st.1 hg,
        collFold_cons_some weekKeyOf r data st.2.1 hg,
        collFold_cons_some monthKeyOf r data st.2.2.1 hg,
        collFold_cons_some fyKeyOfPayment r data st.2.2.2 hg]

/-! ### Cache store (src/services/googleSheetsService.ts lines 55-94)

`localStorage` is an association list from key strings to stored values.  A
stored value is either a successfully serialised `{data, timestamp}` envelope
or an opaque corrupt string on which `JSON.parse(item).data` throws.  JSON
values are the inductive `JsVal` (JS `undefined` is not serialisable, so it
does not occur).  Whether a `setItem` call succeeds is environment behaviour,
modelled by an oracle `attempt`; `setCache`'s `try/catch` distinguishes a
quota `DOMException` from any other failure. -/

inductive JsVal where
  | null
  | bool (b : Bool)
  | num (q : ℚ)
  | str (s : String)
  | arr (elems : List JsVal)
  | obj (fields : List (String × JsVal))

inductive StoredVal where
  | ok (data : JsVal) (timestamp : Nat)
  | bad

/-- The outcome of one `localStorage.setItem` attempt. -/
inductive AttemptOutcome where
  | success
  | quotaFail
  | otherFail
deriving DecidableEq, Repr

abbrev Store := List (String × StoredVal)

/-- Embedding of `localStorage.setItem` once it succeeds: replace in place or append. -/
def setItem (store : Store) (k : String) (v : StoredVal) : Store :=
  if store.any (fun kv => kv.1 == k) then
    store.map (fun kv => if kv.1 == k then (kv.1, v) else kv)
  else store ++ [(k, v)]

/-- Embedding of `k.startsWith('mzo_cache_')`, on code units. -/
def isMzoCacheKey (k : String) : Bool :=
  "mzo_cache_".toList.isPrefixOf k.toList

/-- The quota-recovery loop of `setCache`: remove every key that starts with
`mzo_cache_` other than the one being written. -/
def clearOtherCaches (store : Store) (key : String) : Store :=
  store.filter (fun kv => !(isMzoCacheKey kv.1 && kv.1 != key))

/-- Embedding of `setCache` (src/services/googleSheetsService.ts lines 55-84): write the
`{data, timestamp}` envelope; on a quota failure clear the other `mzo_cache_`
keys and retry exactly once, swallowing a second failure; swallow any other
failure without retrying.  Totality of this function is the model of "the
caller never observes an exception". -/
def setCache (attempt : Store → String → StoredVal → AttemptOutcome)
    (now : Nat) (store : Store) (key : String) (data : JsVal) : Store :=
  let v := StoredVal.ok data now
  match attempt store key v with
  | .success => setItem store key v
  | .quotaFail =>
    let cleared := clearOtherCaches store key
    match attempt cleared key v with
    | .success => setItem cleared key v
    | _ => cleared
  | .otherFail => store

/-- Embedding of `getCache` (src/services/googleSheetsService.ts lines 86-94): `null` on a
missing key, `null` on a value `JSON.parse` rejects, else the `data` field. -/
def getCache (store : Store) (key : String) : Option JsVal :=
  match store.lookup key with
  | none => none
  | some .bad => none
  | some (.ok d _) => some d

/-! ### Compact cache format of `fetchPendingNSCFromSheet`
(src/services/googleSheetsService.ts lines 267-340).

Rows are JS objects, i.e. association lists of fields. -/

abbrev JsRow := List (String × JsVal)

/-- The string of a header cell (headers written by the code are always
strings). -/
def headerName : JsVal → String
  | .str s => s
  | _ => ""

/-- A cached element interpreted as a row object (the `cached as
PendingNSCData[]` cast). -/
def rowOf : JsVal → JsRow
  | .obj fields => fields
  | _ => []

/-- Embedding of `headers.forEach((h, i) => obj[h] = row[i])`: rebuild one row object from
a header row and a value row (the two always have equal length in data this
code writes). -/
def buildRow (hs vals : List JsVal) : JsRow :=
  (hs.zip vals).map (fun hv => (headerName hv.1, hv.2))

/-- The compact `[headers, ...rowArrays]` representation: headers are the keys
of the first row, each row becomes its values looked up per header. -/
def encodeCompactNSC (rows : List JsRow) : JsVal :=
  let headers := (rows.headD []).map Prod.fst
  .arr (.arr (headers.map .str) ::
    rows.map (fun row => .arr (headers.map (fun h => (row.lookup h).getD .null))))

/-- What `fetchPendingNSCFromSheet` caches: compact form past 500 rows, plain
row objects otherwise. -/
def encodeNSCCache (rows : List JsRow) : JsVal :=
  if rows.length > 500 then encodeCompactNSC rows else .arr (rows.map .obj)

/-- The reader (src/services/googleSheetsService.ts lines 271-281): when the
cached value is a non-empty array whose first element is an array, rebuild row
objects from the compact form; otherwise return the cached rows as they are. -/
def decodeCachedNSC : JsVal → List JsRow
  | .arr (first :: rest) =>
    match first with
    | .arr hs => rest.map (fun r =>
        match r with
        | .arr vals => buildRow hs vals
        | _ => [])
    | _ => (first :: rest).map rowOf
  | .arr [] => []
  | _ => []

/-! ### Statement scaffolding for the multi-select no-op claim -/

/-- The multi-select filter fields of `fetchNSCData`. -/
inductive NSCMultiField where
  | delayRange
  | poleNonPole
  | applicantType
  | connClass
  | isDuareSarkar
  | isPortalAppl
  | woIssued
  | divnName
  | suppOffloadWatts
  | appliedPhase
  | noOfPoles
deriving DecidableEq, Repr

/-- The multi-select filter fields of `fetchConsumerData`. -/
inductive ConsumerMultiField where
  | regionCodes
  | divisionCodes
  | cccCodes
  | connStat
  | baseClass
  | category
  | meterType
  | connPhase
  | govtStat
  | connBy
deriving DecidableEq, Repr

def setNSCMulti : NSCMultiField → Option (List String) → HierarchyFilter → HierarchyFilter
  | .delayRange, v, fs => { fs with delayRange := v }
  | .poleNonPole, v, fs => { fs with poleNonPole := v }
  | .applicantType, v, fs => { fs with applicantType := v }
  | .connClass, v, fs => { fs with connClass := v }
  | .isDuareSarkar, v, fs => { fs with isDuareSarkar := v }
  | .isPortalAppl, v, fs => { fs with isPortalAppl := v }
  | .woIssued, v, fs => { fs with woIssued := v }
  | .divnName, v, fs => { fs with divnName := v }
  | .suppOffloadWatts, v, fs => { fs with suppOffloadWatts := v }
  | .appliedPhase, v, fs => { fs with appliedPhase := v }
  | .noOfPoles, v, fs => { fs with noOfPoles := v }

def setConsumerMulti : ConsumerMultiField → Option (List String) → HierarchyFilter → HierarchyFilter
  | .regionCodes, v, fs => { fs with regionCodes := v }
  | .divisionCodes, v, fs => { fs with divisionCodes := v }
  | .cccCodes, v, fs => { fs with cccCodes := v }
  | .connStat, v, fs => { fs with connStat := v }
  | .baseClass, v, fs => { fs with baseClass := v }
  | .category, v, fs => { fs with category := v }
  | .meterType, v, fs => { fs with meterType := v }
  | .connPhase, v, fs => { fs with connPhase := v }
  | .govtStat, v, fs => { fs with govtStat := v }
  | .connBy, v, fs => { fs with connBy := v }

@[simp] theorem multiReject_none (v : String) : multiReject none v = false := rfl

@[simp] theorem multiReject_some_nil (v : String) : multiReject (some []) v = false := rfl

/-! ## Theorems for the claims -/

/-- Claim C9: for every user, filter specification and provider record list,
each of `fetchNSCData`, `fetchConsumerData`, `fetchDocketData` and
`fetchCollectionData` returns a subsequence of the provider's list (every
output record is an element of the input, in original relative order and
unmodified; the pure embedding leaves the user descriptor untouched by
construction). -/
theorem fetch_returns_sublist :
    (∀ (u : User) (fs : HierarchyFilter) (rows : List NSCRow),
      (fetchNSCData u fs rows).Sublist rows) ∧
    (∀ (u : User) (fs : HierarchyFilter) (rows : List ConsumerRow),
      (fetchConsumerData u fs rows).Sublist rows) ∧
    (∀ (u : User) (fs : HierarchyFilter) (rows : List DocketRow),
      (fetchDocketData u fs rows).Sublist rows) ∧
    (∀ (u : User) (fs : HierarchyFilter) (rows : List CollectionRow),
      (fetchCollectionData u fs rows).Sublist rows) :=
  ⟨fun _ _ rows => List.filter_sublist rows,
   fun _ _ rows => List.filter_sublist rows,
   fun _ _ rows => List.filter_sublist rows,
   fun _ _ rows => List.filter_sublist rows⟩

/-- Claim C1, counterexample: a CCC-role user with code `"6613001"` and a
consumer record with an empty `ccc_code` (no value at the user's role level).
The claim asserts the inline hierarchy restriction of `fetchConsumerData`
passes such a record; the code excludes it, because the CCC branch lacks the
`row.ccc_code &&` guard. -/
theorem consumer_ccc_scope_counterexample :
    consumerHierarchyOk { role := .CCC, ccc_code := "6613001" } {} = false ∧
    fetchConsumerData { role := .CCC, ccc_code := "6613001" } {} [{}] = [] := by
  constructor
  · rfl
  · rfl

/-- Claim C1, amended: `applyHierarchyRestriction` returns `true` whenever the
record has no value in the hierarchy field of the user's role level, and the
inline restriction of `fetchConsumerData` does so at the DIVISION and REGION
levels (and restricts nothing for ZONE users); at the CCC level, however, the
inline check compares unconditionally, so it passes an empty-`ccc_code` record
exactly when the user's own code is the empty value too. -/
theorem scope_missing_code_passes :
    (∀ (u : User) (r : HierCodes), u.role = .ZONE → r.zone_code = "" →
      applyHierarchyRestriction r u = true) ∧
    (∀ (u : User) (r : HierCodes), u.role = .REGION → r.region_code = "" →
      applyHierarchyRestriction r u = true) ∧
    (∀ (u : User) (r : HierCodes), u.role = .DIVISION → r.division_code = "" →
      applyHierarchyRestriction r u = true) ∧
    (∀ (u : User) (r : HierCodes), u.role = .CCC → r.ccc_code = "" →
      applyHierarchyRestriction r u = true) ∧
    (∀ (u : User) (row : ConsumerRow), u.role = .DIVISION → row.division_code = "" →
      consumerHierarchyOk u row = true) ∧
    (∀ (u : User) (row : ConsumerRow), u.role = .REGION → row.region_code = "" →
      consumerHierarchyOk u row = true) ∧
    (∀ (u : User) (row : ConsumerRow), u.role = .ZONE →
      consumerHierarchyOk u row = true) ∧
    (∀ (u : User) (row : ConsumerRow), u.role = .CCC →
      consumerHierarchyOk u row = (row.ccc_code == u.ccc_code)) := by
  refine ⟨?_, ?_, ?_, ?_, ?_, ?_, ?_, ?_⟩
  · intro u r h1 h2
    simp [applyHierarchyRestriction, h1, h2, truthy]
  · intro u r h1 h2
    simp [applyHierarchyRestriction, h1, h2, truthy]
  · intro u r h1 h2
    simp [applyHierarchyRestriction, h1, h2, truthy]
  · intro u r h1 h2
    simp [applyHierarchyRestriction, h1, h2, truthy]
  · intro u row h1 h2
    simp [consumerHierarchyOk, h1, h2, truthy]
  · intro u row h1 h2
    simp [consumerHierarchyOk, h1, h2, truthy]
  · intro u row h1
    simp [consumerHierarchyOk, h1]
  · intro u row h1
    simp only [consumerHierarchyOk, h1]
    cases hb : (row.ccc_code == u.ccc_code) with
    | true => simp [hb, beq_iff_eq.mp hb]
    | false => simp [hb, beq_eq_false_iff_ne.mp hb]

/-- Claim C1, witness: the amended theorem applied to a concrete ZONE user and
a record lacking a zone code, and to a concrete CCC user and an
empty-`ccc_code` record. -/
theorem scope_missing_code_passes_witness :
    applyHierarchyRestriction {} { role := .ZONE, zone_code := "Z1" } = true ∧
    consumerHierarchyOk { role := .CCC, ccc_code := "6613001" } {} =
      (("" : String) == "6613001") :=
  ⟨scope_missing_code_passes.1 { role := .ZONE, zone_code := "Z1" } {} rfl rfl,
   scope_missing_code_passes.2.2.2.2.2.2.2 { role := .CCC, ccc_code := "6613001" } {} rfl⟩

/-- Claim C2: binding any multi-select filter field to the empty array yields
exactly the same result set as omitting the field entirely, for every user,
filter specification and record list, across all multi-select fields of
`fetchNSCData` and `fetchConsumerData`. -/
theorem empty_multiselect_noop :
    (∀ (F : NSCMultiField) (u : User) (fs : HierarchyFilter) (rows : List NSCRow),
      fetchNSCData u (setNSCMulti F (some []) fs) rows =
        fetchNSCData u (setNSCMulti F none fs) rows) ∧
    (∀ (F : ConsumerMultiField) (u : User) (fs : HierarchyFilter) (rows : List ConsumerRow),
      fetchConsumerData u (setConsumerMulti F (some []) fs) rows =
        fetchConsumerData u (setConsumerMulti F none fs) rows) := by
  constructor
  · intro F u fs rows
    unfold fetchNSCData
    have hp : nscPred u (setNSCMulti F (some []) fs) = nscPred u (setNSCMulti F none fs) := by
      funext r
      cases F <;> simp [setNSCMulti, nscPred]
    rw [hp]
  · intro F u fs rows
    unfold fetchConsumerData
    have hp : consumerPred u (setConsumerMulti F (some []) fs) =
        consumerPred u (setConsumerMulti F none fs) := by
      funext r
      cases F <;> simp [setConsumerMulti, consumerPred]
    rw [hp]

theorem sum_map_one (l : List γ) : (l.map (fun _ => (1 : ℕ))).sum = l.length := by
  induction l with
  | nil => rfl
  | cons a l ih => simp [ih, Nat.add_comm]

theorem sum_summaryFold_counts (key : NSCKey) (data : List NSCRow) :
    ((summaryFold key data).map (fun kv => kv.2.count)).sum = data.length := by
  unfold summaryFold
  have h := foldl_upsert_sum (M := ℕ) (fun st : SummaryStats => st.count)
      (fun _ : NSCRow => 1) (summaryVal key)
      (fun item => (⟨0, 0, item.DelaySerial⟩ : SummaryStats))
      (fun item st => (⟨st.count + 1, st.totalDelay + item.DelayInSC, st.serial⟩ : SummaryStats))
      (fun _ => rfl) (fun _ _ => rfl) data [] (by simp)
  simpa [sum_map_one] using h

theorem sum_getSummaryData_counts (key : NSCKey) (data : List NSCRow) :
    ((getSummaryData key data).map (fun e => e.count)).sum = data.length := by
  unfold getSummaryData
  by_cases hk : key = NSCKey.DelayRange
  · rw [if_pos hk, sum_map_mergeSort, List.map_map]
    simpa [Function.comp] using sum_summaryFold_counts key data
  · rw [if_neg hk, sum_map_mergeSort, List.map_map]
    simpa [Function.comp] using sum_summaryFold_counts key data

theorem computeConsumer_total (officeMap : List (String × String)) (field : ConsumerField)
    (nameField : Option ConsumerField) (rows : List ConsumerRow) :
    (computeConsumer officeMap field nameField rows).total
      = (rows.map (fun r => r.COUNT)).sum := by
  unfold computeConsumer computeFold
  have h := foldl_upsert_sum (M := Int) (fun c : Int => c) (fun r : ConsumerRow => r.COUNT)
      (computeVal officeMap field nameField) (fun _ => (0 : Int)) (fun r c => c + r.COUNT)
      (fun _ => rfl) (fun _ _ => rfl) rows [] (by simp)
  simpa using h

theorem sum_entry_counts_eq_total (officeMap : List (String × String)) (field : ConsumerField)
    (nameField : Option ConsumerField) (rows : List ConsumerRow) :
    ((computeConsumer officeMap field nameField rows).data.map (fun e => e.count)).sum
      = (computeConsumer officeMap field nameField rows).total := by
  unfold computeConsumer
  rw [sum_map_mergeSort, List.map_map]
  exact congrArg List.sum (List.map_congr_left fun kv _ => rfl)

/-- Claim C3, counterexample: one consumer record with `COUNT = 2`.  The
consumers aggregation sums `row.COUNT` into its buckets, so the grand total is
2 while the number of input records is 1; the claim's equality fails. -/
theorem aggregation_total_counterexample :
    ((computeConsumer [] .CONN_STAT none
        [{ CONN_STAT := "Connected", COUNT := 2 }]).data.map (fun e => e.count)).sum
      ≠ (([({ CONN_STAT := "Connected", COUNT := 2 } : ConsumerRow)]).length : Int) := by
  rw [sum_entry_counts_eq_total, computeConsumer_total]
  decide

/-- Claim C3, amended: no record is ever excluded from the bucketing, and the
grand total (sum of `entry.count` over all buckets, sentinel buckets included)
equals the number of input records for `getSummaryData`, which counts one per
record; for the consumers aggregation `compute`, whose buckets accumulate
`row.COUNT`, the grand total instead equals the sum of the `COUNT` field over
all input records (and the reported `total` equals the sum of all bucket
counts). -/
theorem aggregation_grand_totals :
    (∀ (key : NSCKey) (data : List NSCRow),
      ((getSummaryData key data).map (fun e => e.count)).sum = data.length) ∧
    (∀ (officeMap : List (String × String)) (field : ConsumerField)
        (nameField : Option ConsumerField) (rows : List ConsumerRow),
      (computeConsumer officeMap field nameField rows).total
          = (rows.map (fun r => r.COUNT)).sum ∧
      ((computeConsumer officeMap field nameField rows).data.map (fun e => e.count)).sum
          = (computeConsumer officeMap field nameField rows).total) :=
  ⟨sum_getSummaryData_counts,
   fun officeMap field nameField rows =>
    ⟨computeConsumer_total officeMap field nameField rows,
     sum_entry_counts_eq_total officeMap field nameField rows⟩⟩

theorem roundTenth_err (x : ℚ) : |roundTenth x - x| ≤ 1 / 20 := by
  unfold roundTenth
  have h := abs_sub_round (x * 10)
  have heq : ((round (x * 10) : ℤ) : ℚ) / 10 - x = (((round (x * 10) : ℤ) : ℚ) - x * 10) / 10 := by
    ring
  rw [heq, abs_div, abs_sub_comm]
  have h10 : |(10 : ℚ)| = 10 := by norm_num
  rw [h10]
  linarith

theorem sum_abs_diff_le (l : List γ) (f g : γ → ℚ) (b : ℚ)
    (h : ∀ x ∈ l, |f x - g x| ≤ b) :
    |(l.map f).sum - (l.map g).sum| ≤ (l.length : ℚ) * b := by
  induction l with
  | nil => simp
  | cons a l ih =>
    simp only [List.map_cons, List.sum_cons, List.length_cons]
    have h1 : |f a - g a| ≤ b := h a (by simp)
    have h2 := ih (fun x hx => h x (by simp [hx]))
    have habs : |f a + (l.map f).sum - (g a + (l.map g).sum)|
        ≤ |f a - g a| + |(l.map f).sum - (l.map g).sum| := by
      have : f a + (l.map f).sum - (g a + (l.map g).sum)
          = (f a - g a) + ((l.map f).sum - (l.map g).sum) := by ring
      rw [this]
      exact abs_add _ _
    have : ((l.length + 1 : ℕ) : ℚ) * b = b + (l.length : ℚ) * b := by
      push_cast
      ring
    rw [this]
    calc |f a + (l.map f).sum - (g a + (l.map g).sum)|
        ≤ |f a - g a| + |(l.map f).sum - (l.map g).sum| := habs
      _ ≤ b + (l.length : ℚ) * b := add_le_add h1 h2

theorem sum_exact_shares (m : List (String × Int)) (T : Int) (hT : T ≠ 0)
    (hsum : (m.map (fun kv => kv.2)).sum = T) :
    (m.map (fun kv => ((kv.2 : ℚ) / (T : ℚ)) * 100)).sum = 100 := by
  have h1 : (m.map (fun kv => ((kv.2 : ℚ) / (T : ℚ)) * 100))
      = (m.map (fun kv => ((kv.2 : ℚ)) * (100 / (T : ℚ)))) :=
    List.map_congr_left fun kv _ => by ring
  rw [h1, List.sum_map_mul_right]
  rw [show (m.map fun kv => ((kv.2 : Int) : ℚ))
      = (m.map (fun kv => kv.2)).map (fun z : Int => (z : ℚ)) from (List.map_map ..).symm]
  rw [← Int.cast_list_sum, hsum]
  have hTQ : (T : ℚ) ≠ 0 := Int.cast_ne_zero.mpr hT
  field_simp

/-- Claim C8, amended: for every aggregate result of the consumers `compute`
with a positive total, the one-decimal shares of all buckets sum to 100 within
the rounding tolerance of at most 0.05 (= 1/20) per bucket. -/
theorem share_sum_approx_100 (officeMap : List (String × String)) (field : ConsumerField)
    (nameField : Option ConsumerField) (rows : List ConsumerRow)
    (h : 0 < (computeConsumer officeMap field nameField rows).total) :
    |((computeConsumer officeMap field nameField rows).data.map (fun e => e.share)).sum - 100|
      ≤ ((computeConsumer officeMap field nameField rows).data.length : ℚ) / 20 := by
  simp only [computeConsumer] at h ⊢
  rw [sum_map_mergeSort, List.map_map, List.length_mergeSort, List.length_map]
  have hshare : ((computeFold officeMap field nameField rows).map
        ((fun e : ShareEntry => e.share) ∘ (fun kv =>
          ({ name := if kv.1 == "undefined" then "Unknown" else kv.1
             count := kv.2
             share := if 0 < ((computeFold officeMap field nameField rows).map
                 (fun kv => kv.2)).sum then
               roundTenth ((kv.2 : ℚ) /
                 ((((computeFold officeMap field nameField rows).map (fun kv => kv.2)).sum : Int) : ℚ)
                   * 100)
             else 0 } : ShareEntry))))
      = (computeFold officeMap field nameField rows).map
        (fun kv => roundTenth ((kv.2 : ℚ) /
          ((((computeFold officeMap field nameField rows).map (fun kv => kv.2)).sum : Int) : ℚ)
            * 100)) :=
    List.map_congr_left fun kv _ => by
      simp only [Function.comp_apply]
      exact if_pos h
  rw [hshare]
  have hexact := sum_exact_shares (computeFold officeMap field nameField rows)
    (((computeFold officeMap field nameField rows).map (fun kv => kv.2)).sum)
    (ne_of_gt h) rfl
  have hbound := sum_abs_diff_le (computeFold officeMap field nameField rows)
    (fun kv => roundTenth ((kv.2 : ℚ) /
      ((((computeFold officeMap field nameField rows).map (fun kv => kv.2)).sum : Int) : ℚ) * 100))
    (fun kv => (kv.2 : ℚ) /
      ((((computeFold officeMap field nameField rows).map (fun kv => kv.2)).sum : Int) : ℚ) * 100)
    (1 / 20) (fun kv _ => roundTenth_err _)
  rw [hexact] at hbound
  calc |((computeFold officeMap field nameField rows).map
        (fun kv => roundTenth ((kv.2 : ℚ) /
          ((((computeFold officeMap field nameField rows).map (fun kv => kv.2)).sum : Int) : ℚ)
            * 100))).sum - 100|
      ≤ ((computeFold officeMap field nameField rows).length : ℚ) * (1 / 20) := hbound
    _ = ((computeFold officeMap field nameField rows).length : ℚ) / 20 := by ring

/-- Claim C8, witness: the amended theorem at a concrete two-bucket input with
total 4. -/
theorem share_sum_approx_100_witness :
    0 < (computeConsumer [] .CONN_STAT none
        [{ CONN_STAT := "A", COUNT := 1 }, { CONN_STAT := "B", COUNT := 3 }]).total ∧
    |((computeConsumer [] .CONN_STAT none
        [{ CONN_STAT := "A", COUNT := 1 }, { CONN_STAT := "B", COUNT := 3 }]).data.map
          (fun e => e.share)).sum - 100|
      ≤ ((computeConsumer [] .CONN_STAT none
        [{ CONN_STAT := "A", COUNT := 1 }, { CONN_STAT := "B", COUNT := 3 }]).data.length : ℚ)
          / 20 :=
  ⟨by decide,
   share_sum_approx_100 [] .CONN_STAT none
    [{ CONN_STAT := "A", COUNT := 1 }, { CONN_STAT := "B", COUNT := 3 }] (by decide)⟩

/-- Claim C8, counterexample: one record with `COUNT = -1` gives a non-zero
(negative) total, for which the code emits share `'0'` for every bucket; the
single bucket's share sums to 0, not 100 within 0.05 per bucket. -/
theorem share_sum_counterexample :
    (computeConsumer [] .CONN_STAT none [{ CONN_STAT := "X", COUNT := -1 }]).total ≠ 0 ∧
    ¬ (|((computeConsumer [] .CONN_STAT none
          [{ CONN_STAT := "X", COUNT := -1 }]).data.map (fun e => e.share)).sum - 100|
        ≤ ((computeConsumer [] .CONN_STAT none
          [{ CONN_STAT := "X", COUNT := -1 }]).data.length : ℚ) / 20) := by
  have hfold : computeFold [] .CONN_STAT none [{ CONN_STAT := "X", COUNT := -1 }]
      = [("X", -1)] := by decide
  have hdata : (computeConsumer [] .CONN_STAT none
      [{ CONN_STAT := "X", COUNT := -1 }]).data = [⟨"X", -1, 0⟩] := by
    simp only [computeConsumer, hfold]
    rw [List.map_cons, List.map_nil, List.mergeSort_singleton]
    decide
  constructor
  · decide
  · rw [hdata]
    norm_num

theorem parse_components (s : String) (y m d : Nat)
    (h : parsePaymentDT s = some (y, m, d)) :
    natOfDigits (jsSub s 0 4) = y ∧ natOfDigits (jsSub s 4 6) = m ∧
      natOfDigits (jsSub s 6 8) = d ∧ 1 ≤ m ∧ m ≤ 12 := by
  simp only [parsePaymentDT] at h
  split at h
  · split at h
    · rename_i hrange
      simp only [Option.some.injEq, Prod.mk.injEq] at h
      obtain ⟨h1, h2, h3⟩ := h
      simp only [Bool.and_eq_true, decide_eq_true_eq] at hrange
      exact ⟨h1, h2, h3, h2 ▸ hrange.1.1.1, h2 ▸ hrange.1.1.2⟩
    · exact absurd h (by simp)
  · exact absurd h (by simp)

theorem fyCount_singleton (r : CollectionRow) (v : Nat × Nat × Nat)
    (hp : parsePaymentDT r.PAYMENT_DT = some v) :
    (processCollectionAggregates [r]).fyCount
      = [⟨fyKeyOfPayment r.PAYMENT_DT, r.COUNT, r.AMOUNT_PAID⟩] := by
  simp only [processCollectionAggregates, List.foldl_cons, List.foldl_nil]
  have hstep : collStep4 ([], [], [], []) r =
      (addPayment r [] (dayKeyOf r.PAYMENT_DT),
       addPayment r [] (weekKeyOf r.PAYMENT_DT),
       addPayment r [] (monthKeyOf r.PAYMENT_DT),
       addPayment r [] (fyKeyOfPayment r.PAYMENT_DT)) := by
    unfold collStep4
    rw [hp]
  rw [hstep]
  show sortAndMap (addPayment r [] (fyKeyOfPayment r.PAYMENT_DT)) = _
  rw [show addPayment r [] (fyKeyOfPayment r.PAYMENT_DT)
      = [(fyKeyOfPayment r.PAYMENT_DT,
          (⟨(({} : CVal)).count + r.COUNT, (({} : CVal)).amount + r.AMOUNT_PAID⟩ : CVal))] from rfl]
  simp only [sortAndMap, List.map_cons, List.map_nil, List.mergeSort_singleton]
  simp [zero_add]

/-- Claim C4: for every collection record with a parseable `PAYMENT_DT`, the
fiscal-year rollup buckets it under `FY <year>-<year+1>` when the calendar
month is at least 4, and under `FY <year-1>-<year>` when the month is 1-3; in
particular `20240315` buckets to `FY 2023-2024` and `20240401` to
`FY 2024-2025`. -/
theorem fiscal_year_bucketing :
    (∀ (r : CollectionRow) (y m d : Nat),
      parsePaymentDT r.PAYMENT_DT = some (y, m, d) →
      (4 ≤ m → fyKeyOfPayment r.PAYMENT_DT
          = "FY " ++ toString (y : Int) ++ "-" ++ toString ((y : Int) + 1)) ∧
      (m < 4 → fyKeyOfPayment r.PAYMENT_DT
          = "FY " ++ toString ((y : Int) - 1) ++ "-" ++ toString (y : Int)) ∧
      (processCollectionAggregates [r]).fyCount
          = [⟨fyKeyOfPayment r.PAYMENT_DT, r.COUNT, r.AMOUNT_PAID⟩]) ∧
    fyKeyOfPayment "20240315" = "FY 2023-2024" ∧
    fyKeyOfPayment "20240401" = "FY 2024-2025" := by
  refine ⟨?_, by decide, by decide⟩
  intro r y m d hp
  obtain ⟨h1, h2, _, _, _⟩ := parse_components r.PAYMENT_DT y m d hp
  refine ⟨?_, ?_, fyCount_singleton r (y, m, d) hp⟩
  · intro hm4
    simp only [fyKeyOfPayment, h1, h2]
    rw [if_pos hm4]
  · intro hm4
    simp only [fyKeyOfPayment, h1, h2]
    rw [if_neg (by omega)]

/-- Claim C4, witness: the theorem applied to a concrete record dated
2024-03-15 (month 3, fiscal year 2023-2024). -/
theorem fiscal_year_bucketing_witness :
    fyKeyOfPayment ("20240315" : String) = "FY " ++ toString ((2024 : Int) - 1) ++ "-" ++
      toString ((2024 : Int)) ∧
    (processCollectionAggregates
        [{ PAYMENT_DT := "20240315", COUNT := 2, AMOUNT_PAID := 5 }]).fyCount
      = [⟨fyKeyOfPayment "20240315", 2, 5⟩] := by
  have h := fiscal_year_bucketing.1
    { PAYMENT_DT := "20240315", COUNT := 2, AMOUNT_PAID := 5 } 2024 3 15 (by decide)
  exact ⟨h.2.1 (by decide), h.2.2⟩

theorem sum_count_sortAndMap (m : List (String × CVal)) :
    ((sortAndMap m).map (fun e => e.count)).sum = (m.map (fun kv => kv.2.count)).sum := by
  unfold sortAndMap
  rw [sum_map_mergeSort, List.map_map]
  exact congrArg List.sum (List.map_congr_left fun kv _ => rfl)

theorem sum_amount_sortAndMap (m : List (String × CVal)) :
    ((sortAndMap m).map (fun e => e.amount)).sum = (m.map (fun kv => kv.2.amount)).sum := by
  unfold sortAndMap
  rw [sum_map_mergeSort, List.map_map]
  exact congrArg List.sum (List.map_congr_left fun kv _ => rfl)

theorem sum_count_collFold (keyf : String → String) (data : List CollectionRow) :
    ((collFold keyf data []).map (fun kv => kv.2.count)).sum
      = ((data.filter (fun r => (parsePaymentDT r.PAYMENT_DT).isSome)).map
          (fun r => r.COUNT)).sum := by
  unfold collFold
  rw [foldl_guard_eq_filter]
  simp only [addPayment]
  have h := foldl_upsert_sum (M := Int) (fun v : CVal => v.count)
      (fun r : CollectionRow => r.COUNT)
      (fun r => keyf r.PAYMENT_DT) (fun _ => ({} : CVal))
      (fun r v => (⟨v.count + r.COUNT, v.amount + r.AMOUNT_PAID⟩ : CVal))
      (fun _ => rfl) (fun _ _ => rfl)
      (data.filter (fun r => (parsePaymentDT r.PAYMENT_DT).isSome)) [] (by simp)
  simpa using h

theorem sum_amount_collFold (keyf : String → String) (data : List CollectionRow) :
    ((collFold keyf data []).map (fun kv => kv.2.amount)).sum
      = ((data.filter (fun r => (parsePaymentDT r.PAYMENT_DT).isSome)).map
          (fun r => r.AMOUNT_PAID)).sum := by
  unfold collFold
  rw [foldl_guard_eq_filter]
  simp only [addPayment]
  have h := foldl_upsert_sum (M := ℚ) (fun v : CVal => v.amount)
      (fun r : CollectionRow => r.AMOUNT_PAID)
      (fun r => keyf r.PAYMENT_DT) (fun _ => ({} : CVal))
      (fun r v => (⟨v.count + r.COUNT, v.amount + r.AMOUNT_PAID⟩ : CVal))
      (fun _ => rfl) (fun _ _ => rfl)
      (data.filter (fun r => (parsePaymentDT r.PAYMENT_DT).isSome)) [] (by simp)
  simpa using h

/-- Claim C10: all four time-bucketed rollups of `processCollectionAggregates`
conserve the same grand totals — for each granularity the sum of `count` over
its entries equals the sum of `COUNT` over the records with a parseable
`PAYMENT_DT`, and likewise the sum of `amount` equals the sum of
`AMOUNT_PAID`; hence the four granularities agree pairwise. -/
theorem collection_rollup_totals (data : List CollectionRow) :
    (((processCollectionAggregates data).dailyCount.map (fun e => e.count)).sum
      = ((data.filter (fun r => (parsePaymentDT r.PAYMENT_DT).isSome)).map
          (fun r => r.COUNT)).sum) ∧
    (((processCollectionAggregates data).weeklyCount.map (fun e => e.count)).sum
      = ((data.filter (fun r => (parsePaymentDT r.PAYMENT_DT).isSome)).map
          (fun r => r.COUNT)).sum) ∧
    (((processCollectionAggregates data).monthlyCount.map (fun e => e.count)).sum
      = ((data.filter (fun r => (parsePaymentDT r.PAYMENT_DT).isSome)).map
          (fun r => r.COUNT)).sum) ∧
    (((processCollectionAggregates data).fyCount.map (fun e => e.count)).sum
      = ((data.filter (fun r => (parsePaymentDT r.PAYMENT_DT).isSome)).map
          (fun r => r.COUNT)).sum) ∧
    (((processCollectionAggregates data).dailyCount.map (fun e => e.amount)).sum
      = ((data.filter (fun r => (parsePaymentDT r.PAYMENT_DT).isSome)).map
          (fun r => r.AMOUNT_PAID)).sum) ∧
    (((processCollectionAggregates data).weeklyCount.map (fun e => e.amount)).sum
      = ((data.filter (fun r => (parsePaymentDT r.PAYMENT_DT).isSome)).map
          (fun r => r.AMOUNT_PAID)).sum) ∧
    (((processCollectionAggregates data).monthlyCount.map (fun e => e.amount)).sum
      = ((data.filter (fun r => (parsePaymentDT r.PAYMENT_DT).isSome)).map
          (fun r => r.AMOUNT_PAID)).sum) ∧
    (((processCollectionAggregates data).fyCount.map (fun e => e.amount)).sum
      = ((data.filter (fun r => (parsePaymentDT r.PAYMENT_DT).isSome)).map
          (fun r => r.AMOUNT_PAID)).sum) ∧
    (((processCollectionAggregates data).dailyCount.map (fun e => e.count)).sum
      = ((processCollectionAggregates data).weeklyCount.map (fun e => e.count)).sum) ∧
    (((processCollectionAggregates data).weeklyCount.map (fun e => e.count)).sum
      = ((processCollectionAggregates data).monthlyCount.map (fun e => e.count)).sum) ∧
    (((processCollectionAggregates data).monthlyCount.map (fun e => e.count)).sum
      = ((processCollectionAggregates data).fyCount.map (fun e => e.count)).sum) ∧
    (((processCollectionAggregates data).dailyCount.map (fun e => e.amount)).sum
      = ((processCollectionAggregates data).weeklyCount.map (fun e => e.amount)).sum) ∧
    (((processCollectionAggregates data).weeklyCount.map (fun e => e.amount)).sum
      = ((processCollectionAggregates data).monthlyCount.map (fun e => e.amount)).sum) ∧
    (((processCollectionAggregates data).monthlyCount.map (fun e => e.amount)).sum
      = ((processCollectionAggregates data).fyCount.map (fun e => e.amount)).sum) := by
  have hc : ∀ keyf : String → String,
      ((sortAndMap (collFold keyf data [])).map (fun e => e.count)).sum
        = ((data.filter (fun r => (parsePaymentDT r.PAYMENT_DT).isSome)).map
            (fun r => r.COUNT)).sum := fun keyf => by
    rw [sum_count_sortAndMap]
    exact sum_count_collFold keyf data
  have ha : ∀ keyf : String → String,
      ((sortAndMap (collFold keyf data [])).map (fun e => e.amount)).sum
        = ((data.filter (fun r => (parsePaymentDT r.PAYMENT_DT).isSome)).map
            (fun r => r.AMOUNT_PAID)).sum := fun keyf => by
    rw [sum_amount_sortAndMap]
    exact sum_amount_collFold keyf data
  simp only [processCollectionAggregates, foldl_collStep4_eq data ([], [], [], [])]
  refine ⟨hc dayKeyOf, hc weekKeyOf, hc monthKeyOf, hc fyKeyOfPayment,
    ha dayKeyOf, ha weekKeyOf, ha monthKeyOf, ha fyKeyOfPayment, ?_, ?_, ?_, ?_, ?_, ?_⟩
  · rw [hc dayKeyOf, hc weekKeyOf]
  · rw [hc weekKeyOf, hc monthKeyOf]
  · rw [hc monthKeyOf, hc fyKeyOfPayment]
  · rw [ha dayKeyOf, ha weekKeyOf]
  · rw [ha weekKeyOf, ha monthKeyOf]
  · rw [ha monthKeyOf, ha fyKeyOfPayment]

theorem resolveName_resolved (officeMap : List (String × String)) (code n : String)
    (hl : officeMap.lookup code = some n) (ht : truthy n = true) :
    resolveName officeMap code = formatValue n := by
  simp only [resolveName, hl]
  rw [if_pos ht]

theorem resolveName_unresolved (officeMap : List (String × String)) (code : String)
    (hl : officeMap.lookup code = none) :
    resolveName officeMap code = formatValue code := by
  simp only [resolveName, hl]
  by_cases hc : truthy code = true
  · rw [if_pos hc]
  · have : code = "" := by
      by_contra hne
      exact hc (by simpa [truthy] using hne)
    rw [this]
    rfl

/-- Claim C7, counterexample: with no directory entry for the code `"Z-123"`,
`resolveName` does not return the raw code unchanged — the level-tag strip and
trim are applied to the fallback code as well, yielding `"123"`. -/
theorem resolver_counterexample :
    resolveName [] "Z-123" = "123" ∧ resolveName [] "Z-123" ≠ "Z-123" := by
  constructor
  · decide
  · decide

/-- Claim C7, amended: `resolveName` strips a leading level tag (`Z-`, `R-`,
`D-`, `CCC-`, case-insensitive) and trims the resolved directory name before
display; when the code has no (truthy) directory entry it returns
`formatValue(code)` — the raw code with the same strip-and-trim applied — which
is the code unchanged exactly when the code carries no level tag and no
surrounding whitespace. -/
theorem resolver_behavior :
    (∀ (officeMap : List (String × String)) (code n : String),
      officeMap.lookup code = some n → truthy n = true →
      resolveName officeMap code = formatValue n) ∧
    (∀ (officeMap : List (String × String)) (code : String),
      officeMap.lookup code = none → resolveName officeMap code = formatValue code) ∧
    (∀ t : List Char,
      stripLevelTag ('Z' :: '-' :: t) = t ∧ stripLevelTag ('z' :: '-' :: t) = t ∧
      stripLevelTag ('R' :: '-' :: t) = t ∧ stripLevelTag ('D' :: '-' :: t) = t ∧
      stripLevelTag ('C' :: 'C' :: 'C' :: '-' :: t) = t) ∧
    (∀ code : String, stripLevelTag code.toList = code.toList →
      trimChars code.toList = code.toList →
      ∀ officeMap : List (String × String), officeMap.lookup code = none →
      resolveName officeMap code = code) := by
  refine ⟨resolveName_resolved, resolveName_unresolved, ?_, ?_⟩
  · intro t
    exact ⟨rfl, rfl, rfl, rfl, rfl⟩
  · intro code h1 h2 officeMap hl
    rw [resolveName_unresolved officeMap code hl]
    unfold formatValue
    rw [h1, h2]
    rfl

/-- Claim C7, witness: a resolved entry `"Z-Howrah"` is stripped to
`"Howrah"`, and an unresolved tag-free code comes back unchanged. -/
theorem resolver_behavior_witness :
    resolveName [("C1", "Z-Howrah")] "C1" = formatValue "Z-Howrah" ∧
    stripLevelTag ('Z' :: '-' :: "Howrah".toList) = "Howrah".toList ∧
    resolveName [] "6613001" = "6613001" :=
  ⟨resolver_behavior.1 [("C1", "Z-Howrah")] "C1" "Z-Howrah" (by decide) (by decide),
   (resolver_behavior.2.2.1 "Howrah".toList).1,
   resolver_behavior.2.2.2 "6613001" (by decide) (by decide) [] rfl⟩

theorem setItem_cons_ne (a : String × StoredVal) (s : Store) (k : String) (v : StoredVal)
    (h : (a.1 == k) = false) : setItem (a :: s) k v = a :: setItem s k v := by
  simp only [setItem, List.any_cons, h, Bool.false_or, List.map_cons]
  cases hm : s.any (fun kv => kv.1 == k) with
  | true => simp [hm, h]
  | false => simp [hm, h]

theorem lookup_setItem_self (s : Store) (k : String) (v : StoredVal) :
    (setItem s k v).lookup k = some v := by
  induction s with
  | nil => simp [setItem, List.lookup]
  | cons a s ih =>
    obtain ⟨a1, a2⟩ := a
    cases h : (a1 == k) with
    | true =>
      have hany : ((a1, a2) :: s).any (fun kv => kv.1 == k) = true := by simp [h]
      simp only [setItem, hany, if_true, List.map_cons]
      have hk : (k == a1) = true := by
        rw [beq_iff_eq] at h ⊢
        exact h.symm
      simp [h, List.lookup_cons, hk]
    | false =>
      rw [setItem_cons_ne (a1, a2) s k v h]
      have hk : (k == a1) = false := by
        rw [beq_eq_false_iff_ne] at h ⊢
        exact fun he => h he.symm
      simp [List.lookup_cons, hk, ih]

theorem lookup_map_set_ne (t : Store) (k : String) (v : StoredVal) (k' : String)
    (hne : k' ≠ k) :
    (t.map (fun kv => if kv.1 == k then (kv.1, v) else kv)).lookup k' = t.lookup k' := by
  induction t with
  | nil => rfl
  | cons b t ih =>
    obtain ⟨b1, b2⟩ := b
    rw [List.map_cons]
    cases hb : (b1 == k) with
    | true =>
      have hkb : (k' == b1) = false := by
        rw [beq_eq_false_iff_ne]
        intro he
        exact hne (he.trans (beq_iff_eq.mp hb))
      simp only [hb, if_true, List.lookup_cons, hkb]
      exact ih
    | false =>
      simp only [hb, Bool.false_eq_true, if_false, List.lookup_cons]
      cases hkb : (k' == b1) with
      | true => rfl
      | false => exact ih

theorem lookup_append_single_ne (s : Store) (k : String) (v : StoredVal) (k' : String)
    (hne : k' ≠ k) : (s ++ [(k, v)]).lookup k' = s.lookup k' := by
  induction s with
  | nil => simp [List.lookup, beq_eq_false_iff_ne.mpr hne]
  | cons b t ih =>
    obtain ⟨b1, b2⟩ := b
    cases hkb : (k' == b1) with
    | true => simp [List.lookup_cons, hkb]
    | false => simp [List.lookup_cons, hkb, ih]

theorem lookup_setItem_ne (s : Store) (k : String) (v : StoredVal) (k' : String)
    (hne : k' ≠ k) : (setItem s k v).lookup k' = s.lookup k' := by
  unfold setItem
  cases hany : s.any (fun kv => kv.1 == k) with
  | true =>
    simp only [hany, if_true]
    exact lookup_map_set_ne s k v k' hne
  | false =>
    simp only [hany, Bool.false_eq_true, if_false]
    exact lookup_append_single_ne s k v k' hne

theorem lookup_filter_out (p : String × StoredVal → Bool) (s : Store) (k : String)
    (hk : ∀ v, p (k, v) = false) : (s.filter p).lookup k = none := by
  induction s with
  | nil => rfl
  | cons a s ih =>
    obtain ⟨a1, a2⟩ := a
    cases hp : p (a1, a2) with
    | true =>
      have hka : (k == a1) = false := by
        rw [beq_eq_false_iff_ne]
        intro he
        subst he
        rw [hk a2] at hp
        exact Bool.false_ne_true hp
      simp [List.filter_cons, hp, List.lookup_cons, hka, ih]
    | false => simp [List.filter_cons, hp, ih]

theorem lookup_filter_keep (p : String × StoredVal → Bool) (s : Store) (k : String)
    (hk : ∀ v, p (k, v) = true) : (s.filter p).lookup k = s.lookup k := by
  induction s with
  | nil => rfl
  | cons a s ih =>
    obtain ⟨a1, a2⟩ := a
    cases hka : (k == a1) with
    | true =>
      have : p (a1, a2) = true := by
        rw [← beq_iff_eq.mp hka]
        exact hk a2
      simp [List.filter_cons, this, List.lookup_cons, hka]
    | false =>
      cases hp : p (a1, a2) with
      | true => simp [List.filter_cons, hp, List.lookup_cons, hka, ih]
      | false => simp [List.filter_cons, hp, List.lookup_cons, hka, ih]

theorem lookup_clearOther_removed (store : Store) (key k : String)
    (hpre : isMzoCacheKey k = true) (hne : k ≠ key) :
    (clearOtherCaches store key).lookup k = none := by
  unfold clearOtherCaches
  refine lookup_filter_out _ store k fun v => ?_
  have : (k != key) = true := by
    simp [bne, beq_eq_false_iff_ne.mpr hne]
  simp [hpre, this]

theorem lookup_clearOther_key (store : Store) (key : String) :
    (clearOtherCaches store key).lookup key = store.lookup key := by
  unfold clearOtherCaches
  refine lookup_filter_keep _ store key fun v => ?_
  simp [bne]

/-- Claim C5: on a quota failure during `setCache`, every other `mzo_cache_`
key is removed but never the key being written; the write is retried exactly
once (the final store is fully determined by that single retry's outcome); a
non-quota failure is swallowed without clearing; `getCache` returns `null`
(none) on a missing key or an unparseable value and, being total, never
throws — as is `setCache`, whose callers never observe an exception. -/
theorem cache_quota_and_get_behavior :
    ∀ (attempt : Store → String → StoredVal → AttemptOutcome) (now : Nat)
      (store : Store) (key : String) (data : JsVal),
    (attempt store key (.ok data now) = .quotaFail →
      (∀ k, isMzoCacheKey k = true → k ≠ key →
        (setCache attempt now store key data).lookup k = none) ∧
      (setCache attempt now store key data =
        match attempt (clearOtherCaches store key) key (.ok data now) with
        | .success => setItem (clearOtherCaches store key) key (.ok data now)
        | _ => clearOtherCaches store key) ∧
      (attempt (clearOtherCaches store key) key (.ok data now) ≠ .success →
        (setCache attempt now store key data).lookup key = store.lookup key)) ∧
    (attempt store key (.ok data now) = .success →
      setCache attempt now store key data = setItem store key (.ok data now) ∧
      (setCache attempt now store key data).lookup key = some (.ok data now)) ∧
    (attempt store key (.ok data now) = .otherFail →
      setCache attempt now store key data = store) ∧
    (∀ (s : Store) (k : String), s.lookup k = none → getCache s k = none) ∧
    (∀ (s : Store) (k : String), s.lookup k = some .bad → getCache s k = none) ∧
    (∀ (s : Store) (k : String) (d : JsVal) (t : Nat),
      s.lookup k = some (.ok d t) → getCache s k = some d) := by
  intro attempt now store key data
  refine ⟨?_, ?_, ?_, ?_, ?_, ?_⟩
  · intro hq
    have hset : setCache attempt now store key data =
        match attempt (clearOtherCaches store key) key (.ok data now) with
        | .success => setItem (clearOtherCaches store key) key (.ok data now)
        | _ => clearOtherCaches store key := by
      simp only [setCache, hq]
    refine ⟨?_, hset, ?_⟩
    · intro k hpre hne
      rw [hset]
      cases hr : attempt (clearOtherCaches store key) key (.ok data now) with
      | success =>
        simp only [hr]
        rw [lookup_setItem_ne _ _ _ _ hne]
        exact lookup_clearOther_removed store key k hpre hne
      | quotaFail =>
        simp only [hr]
        exact lookup_clearOther_removed store key k hpre hne
      | otherFail =>
        simp only [hr]
        exact lookup_clearOther_removed store key k hpre hne
    · intro hfail
      rw [hset]
      cases hr : attempt (clearOtherCaches store key) key (.ok data now) with
      | success => exact absurd hr hfail
      | quotaFail =>
        simp only [hr]
        exact lookup_clearOther_key store key
      | otherFail =>
        simp only [hr]
        exact lookup_clearOther_key store key
  · intro hs
    have hset : setCache attempt now store key data = setItem store key (.ok data now) := by
      simp only [setCache, hs]
    exact ⟨hset, by rw [hset]; exact lookup_setItem_self store key _⟩
  · intro ho
    simp only [setCache, ho]
  · intro s k h
    unfold getCache
    rw [h]
  · intro s k h
    unfold getCache
    rw [h]
  · intro s k d t h
    unfold getCache
    rw [h]

/-- Claim C5, witness: a three-entry store whose first write hits the quota;
the other cache keys are cleared, the retry succeeds, and reads behave as
specified. -/
theorem cache_quota_and_get_behavior_witness :
    (setCache (fun s _ _ => if s.length ≥ 3 then .quotaFail else .success) 1
        [("mzo_cache_users", .bad), ("mzo_cache_nsc", .ok .null 0), ("other", .bad)]
        "mzo_cache_consumers" .null).lookup "mzo_cache_users" = none ∧
    getCache ([("k", StoredVal.bad)] : Store) "missing" = none ∧
    getCache ([("k", StoredVal.bad)] : Store) "k" = none ∧
    getCache ([("k", StoredVal.ok .null 7)] : Store) "k" = some JsVal.null :=
  ⟨((cache_quota_and_get_behavior (fun s _ _ => if s.length ≥ 3 then .quotaFail else .success)
      1 [("mzo_cache_users", .bad), ("mzo_cache_nsc", .ok .null 0), ("other", .bad)]
      "mzo_cache_consumers" .null).1 (by decide)).1 "mzo_cache_users" (by decide) (by decide),
   (cache_quota_and_get_behavior (fun s _ _ => if s.length ≥ 3 then .quotaFail else .success)
      1 [] "" .null).2.2.2.1 [("k", StoredVal.bad)] "missing" rfl,
   (cache_quota_and_get_behavior (fun s _ _ => if s.length ≥ 3 then .quotaFail else .success)
      1 [] "" .null).2.2.2.2.1 [("k", StoredVal.bad)] "k" rfl,
   (cache_quota_and_get_behavior (fun s _ _ => if s.length ≥ 3 then .quotaFail else .success)
      1 [] "" .null).2.2.2.2.2 [("k", StoredVal.ok .null 7)] "k" JsVal.null 7 rfl⟩

theorem selfLookup_map (row : JsRow) (hnd : (row.map Prod.fst).Nodup) :
    (row.map Prod.fst).map (fun k => (k, (row.lookup k).getD JsVal.null)) = row := by
  induction row with
  | nil => rfl
  | cons a row ih =>
    obtain ⟨a1, a2⟩ := a
    rw [List.map_cons, List.map_cons]
    rw [List.map_cons, List.nodup_cons] at hnd
    congr 1
    · rw [List.lookup_cons, show (a1 == a1) = true from beq_iff_eq.mpr rfl]
      rfl
    · have hstep : (row.map Prod.fst).map
          (fun k => (k, (((a1, a2) :: row).lookup k).getD JsVal.null))
          = (row.map Prod.fst).map (fun k => (k, (row.lookup k).getD JsVal.null)) := by
        refine List.map_congr_left fun k hkmem => ?_
        have hka : (k == a1) = false := by
          rw [beq_eq_false_iff_ne]
          intro he
          exact hnd.1 (he ▸ hkmem)
        rw [List.lookup_cons, hka]
      rw [hstep]
      exact ih hnd.2

theorem buildRow_encode (row : JsRow) (hnd : (row.map Prod.fst).Nodup) :
    buildRow ((row.map Prod.fst).map .str)
      ((row.map Prod.fst).map (fun h => (row.lookup h).getD .null)) = row := by
  unfold buildRow
  rw [List.zip_map', List.map_map]
  rw [List.map_congr_left (fun k _ =>
    show ((fun hv : JsVal × JsVal => (headerName hv.1, hv.2)) ∘
        fun a => (JsVal.str a, (row.lookup a).getD JsVal.null)) k
      = (k, (row.lookup k).getD JsVal.null) from rfl)]
  exact selfLookup_map row hnd

theorem decode_encodeCompact (rows : List JsRow)
    (hkeys : ∀ row ∈ rows, row.map Prod.fst = (rows.headD []).map Prod.fst)
    (hnd : ((rows.headD []).map Prod.fst).Nodup) :
    decodeCachedNSC (encodeCompactNSC rows) = rows := by
  show (rows.map (fun row => JsVal.arr (((rows.headD []).map Prod.fst).map
      (fun h => (row.lookup h).getD JsVal.null)))).map
      (fun r => match r with
        | .arr vals => buildRow (((rows.headD []).map Prod.fst).map .str) vals
        | _ => []) = rows
  rw [List.map_map]
  conv_rhs => rw [← List.map_id rows]
  refine List.map_congr_left fun row hrow => ?_
  show buildRow (((rows.headD []).map Prod.fst).map .str)
      (((rows.headD []).map Prod.fst).map (fun h => (row.lookup h).getD JsVal.null)) = row
  rw [← hkeys row hrow]
  exact buildRow_encode row (by rw [hkeys row hrow]; exact hnd)

theorem decode_encode_plain (rows : List JsRow) :
    decodeCachedNSC (.arr (rows.map .obj)) = rows := by
  cases rows with
  | nil => rfl
  | cons r rest =>
    show ((JsVal.obj r) :: rest.map .obj).map rowOf = r :: rest
    rw [List.map_cons, List.map_map]
    have hrest : rest.map (rowOf ∘ JsVal.obj) = rest := by
      conv_rhs => rw [← List.map_id rest]
      exact List.map_congr_left fun x _ => rfl
    rw [hrest]
    rfl

theorem decode_encodeNSCCache (rows : List JsRow)
    (hkeys : ∀ row ∈ rows, row.map Prod.fst = (rows.headD []).map Prod.fst)
    (hnd : ((rows.headD []).map Prod.fst).Nodup) :
    decodeCachedNSC (encodeNSCCache rows) = rows := by
  unfold encodeNSCCache
  by_cases hlen : rows.length > 500
  · rw [if_pos hlen]
    exact decode_encodeCompact rows hkeys hnd
  · rw [if_neg hlen]
    exact decode_encode_plain rows

/-- Claim C6: a serialisable record array written to the cache reads back as
the same value, and the `fetchPendingNSCFromSheet` reader reconstructs row
objects identical to the originals from what the writer stored — both for the
plain row-object form and for the compact `[headers, ...rowArrays]` form used
past 500 rows (rows share the first row's key order, as the code's uniform
object construction guarantees). -/
theorem cache_roundtrip_compact :
    ∀ (attempt : Store → String → StoredVal → AttemptOutcome) (now : Nat)
      (store : Store) (key : String) (rows : List JsRow),
    (∀ row ∈ rows, row.map Prod.fst = (rows.headD []).map Prod.fst) →
    ((rows.headD []).map Prod.fst).Nodup →
    attempt store key (.ok (encodeNSCCache rows) now) = .success →
    getCache (setCache attempt now store key (encodeNSCCache rows)) key
        = some (encodeNSCCache rows) ∧
    decodeCachedNSC (encodeNSCCache rows) = rows ∧
    decodeCachedNSC (encodeCompactNSC rows) = rows := by
  intro attempt now store key rows hkeys hnd hsucc
  refine ⟨?_, decode_encodeNSCCache rows hkeys hnd, decode_encodeCompact rows hkeys hnd⟩
  have hset : setCache attempt now store key (encodeNSCCache rows)
      = setItem store key (.ok (encodeNSCCache rows) now) := by
    simp only [setCache, hsucc]
  rw [hset]
  unfold getCache
  rw [lookup_setItem_self]

/-- Claim C6, witness: two uniform two-field rows round-trip through the cache
and through the compact encoding. -/
theorem cache_roundtrip_compact_witness :
    getCache (setCache (fun _ _ _ => .success) 0 [] "mzo_cache_nsc"
        (encodeNSCCache [[("a", .str "x"), ("b", .num 1)], [("a", .str "y"), ("b", .null)]]))
        "mzo_cache_nsc"
      = some (encodeNSCCache [[("a", .str "x"), ("b", .num 1)], [("a", .str "y"), ("b", .null)]]) ∧
    decodeCachedNSC (encodeNSCCache
        [[("a", .str "x"), ("b", .num 1)], [("a", .str "y"), ("b", .null)]])
      = [[("a", .str "x"), ("b", .num 1)], [("a", .str "y"), ("b", .null)]] ∧
    decodeCachedNSC (encodeCompactNSC
        [[("a", .str "x"), ("b", .num 1)], [("a", .str "y"), ("b", .null)]])
      = [[("a", .str "x"), ("b", .num 1)], [("a", .str "y"), ("b", .null)]] :=
  cache_roundtrip_compact (fun _ _ _ => .success) 0 [] "mzo_cache_nsc"
    [[("a", .str "x"), ("b", .num 1)], [("a", .str "y"), ("b", .null)]]
    (by decide) (by decide) rfl

end MZO
